import Mathlib

/-!
Shallow embedding of the Foodly backend (src/server.js): an Express +
SQLite food-ordering server with four data endpoints (login, place
order, list orders, list cart history), two read-only admin views and
idempotent schema creation.  Request-body fields are modelled as
Option-typed values (absent or present), the JavaScript truthiness
checks of the handlers are modelled explicitly, the SQLite database is
a record of three tables plus autoincrement counters and a clock for
the CURRENT_TIMESTAMP defaults, and every db.run / db.get call a
handler issues is recorded in an operation trace.  Failure of an
individual storage operation is modelled by Boolean oracles passed to
each handler, mirroring the err argument of each sqlite3 callback.
-/

namespace Foodly

/-- A line item of an order request: an object with id, name, quantity
and price, as sent in the items array of POST /api/order.  The numeric
fields are modelled as integers. -/
structure Item where
  id : Int
  name : String
  quantity : Int
  price : Int
deriving DecidableEq

/-- A row of the users table. -/
structure UserRow where
  id : Nat
  username : String
  password : String
  created_at : Nat
deriving DecidableEq

/-- A row of the orders table; items holds the serialized item list. -/
structure OrderRow where
  id : Nat
  username : String
  items : String
  total : Int
  order_date : Nat
deriving DecidableEq

/-- A row of the cart_history table. -/
structure CartRow where
  id : Nat
  username : String
  item_id : Int
  item_name : String
  quantity : Int
  price : Int
  added_date : Nat
deriving DecidableEq

/-- The SQLite database: the three tables, the next AUTOINCREMENT id of
each, and a clock supplying the DATETIME DEFAULT CURRENT_TIMESTAMP
values (it advances by one at every insert). -/
structure Db where
  users : List UserRow
  orders : List OrderRow
  cart : List CartRow
  nextUserId : Nat
  nextOrderId : Nat
  nextCartId : Nat
  clock : Nat
deriving DecidableEq

/-- A freshly created database: empty tables, AUTOINCREMENT counters
starting at 1. -/
def Db.empty : Db :=
  ⟨[], [], [], 1, 1, 1, 0⟩

/-- One storage operation issued by a handler (one db.get or db.run of
a data statement in the source). -/
inductive DbOp where
  | getUser (username : String)
  | insertUser (username password : String)
  | insertOrder (username itemsJson : String) (total : Int)
  | insertCart (username : String) (item_id : Int) (item_name : String)
      (quantity : Int) (price : Int)
deriving DecidableEq

def emptyStr : String := ""

/-- JavaScript truthiness of an optional string field: absent,
null-like and the empty string are falsy. -/
def truthyStr (s? : Option String) : Bool :=
  match s? with
  | none => false
  | some s => if s = emptyStr then false else true

/-- JavaScript truthiness of an optional array field: an array object
is always truthy (even when empty); only an absent field is falsy. -/
def truthyArr (a? : Option (List Item)) : Bool :=
  a?.isSome

/-- JavaScript truthiness of an optional numeric field: absent and the
number 0 are falsy, every other number (negative included) is truthy. -/
def truthyNum (n? : Option Int) : Bool :=
  match n? with
  | none => false
  | some n => if n = 0 then false else true

/-- INSERT INTO users (username, password) VALUES (?, ?). -/
def Db.insertUser (db : Db) (u p : String) : Db :=
  { db with
      users := db.users ++ [⟨db.nextUserId, u, p, db.clock⟩]
      nextUserId := db.nextUserId + 1
      clock := db.clock + 1 }

/-- INSERT INTO orders (username, items, total) VALUES (?, ?, ?). -/
def Db.insertOrder (db : Db) (u itemsJson : String) (total : Int) : Db :=
  { db with
      orders := db.orders ++ [⟨db.nextOrderId, u, itemsJson, total, db.clock⟩]
      nextOrderId := db.nextOrderId + 1
      clock := db.clock + 1 }

/-- INSERT INTO cart_history (username, item_id, item_name, quantity, price)
VALUES (?, ?, ?, ?, ?). -/
def Db.insertCart (db : Db) (u : String) (it : Item) : Db :=
  { db with
      cart := db.cart ++ [⟨db.nextCartId, u, it.id, it.name, it.quantity, it.price, db.clock⟩]
      nextCartId := db.nextCartId + 1
      clock := db.clock + 1 }

def loginSuccessMsg : String := "Login successful"
def createdMsg : String := "User created and login successful"
def loginRequiredMsg : String := "Username and password are required"
def dbErrorMsg : String := "Database error"
def createFailMsg : String := "Failed to create user"
def missingFieldsMsg : String := "Missing required fields"
def orderFailMsg : String := "Failed to place order"

/-- The response of POST /api/login. -/
inductive LoginResp where
  | badRequest
  | dbError
  | createFailed
  | loginOk (username : String)
  | created (username : String)
deriving DecidableEq

/-- The HTTP status of a login response. -/
def LoginResp.status : LoginResp → Nat
  | .badRequest => 400
  | .dbError => 500
  | .createFailed => 500
  | .loginOk _ => 200
  | .created _ => 200

/-- The message field of a login response's JSON body. -/
def LoginResp.message : LoginResp → String
  | .badRequest => loginRequiredMsg
  | .dbError => dbErrorMsg
  | .createFailed => createFailMsg
  | .loginOk _ => loginSuccessMsg
  | .created _ => createdMsg

/-- The outcome of one POST /api/login request: the response, the
database after the request, and the trace of storage operations the
handler issued. -/
structure LoginResult where
  resp : LoginResp
  db : Db
  ops : List DbOp
deriving DecidableEq

/-- The POST /api/login handler.  lookupErr / insertErr say whether the
SELECT and the INSERT fail at the storage layer. -/
def apiLogin (db : Db) (username? password? : Option String)
    (lookupErr insertErr : Bool) : LoginResult :=
  if !(truthyStr username?) || !(truthyStr password?) then
    ⟨.badRequest, db, []⟩
  else
    let u := username?.getD emptyStr
    let p := password?.getD emptyStr
    if lookupErr then ⟨.dbError, db, [.getUser u]⟩
    else
      match db.users.find? (fun r => r.username == u) with
      | some _ => ⟨.loginOk u, db, [.getUser u]⟩
      | none =>
          if insertErr then ⟨.createFailed, db, [.getUser u, .insertUser u p]⟩
          else ⟨.created u, db.insertUser u p, [.getUser u, .insertUser u p]⟩

/-! Serialization: JSON.stringify for the items array of POST /api/order.  The handler
stores JSON.stringify(items) in the orders.items column; the admin
details view reads it back with JSON.parse.  The encoder below follows
JSON.stringify on an array of item objects: no whitespace, object keys
in property order (id, name, quantity, price), strings escaped with the
two-character escapes for quote, backslash and the named control
characters, and a four-hex-digit u-escape for the remaining control
characters. -/

def digitChar (d : Nat) : Char :=
  Char.ofNat (48 + d)

/-- Lowercase hexadecimal digit character, as emitted by JSON.stringify
in u-escapes. -/
def hexDigit (d : Nat) : Char :=
  if d < 10 then Char.ofNat (48 + d) else Char.ofNat (87 + d)

/-- The decimal digits of a natural number, most significant first. -/
def natChars (n : Nat) : List Char :=
  if h : n < 10 then [digitChar n]
  else
    have : n / 10 < n := Nat.div_lt_self (by omega) (by omega)
    natChars (n / 10) ++ [digitChar (n % 10)]

/-- The JSON rendering of an integer: optional minus sign, then digits. -/
def intChars (i : Int) : List Char :=
  if i < 0 then '-' :: natChars i.natAbs else natChars i.toNat

def backslashChar : Char := Char.ofNat 92
def quoteChar : Char := Char.ofNat 34
def openBraceChar : Char := Char.ofNat 123
def closeBraceChar : Char := Char.ofNat 125
def openBracketChar : Char := Char.ofNat 91
def closeBracketChar : Char := Char.ofNat 93

/-- The JSON.stringify escape of one character inside a string literal. -/
def escChar (c : Char) : List Char :=
  if c = quoteChar then [backslashChar, quoteChar]
  else if c = backslashChar then [backslashChar, backslashChar]
  else if c = Char.ofNat 8 then [backslashChar, 'b']
  else if c = Char.ofNat 9 then [backslashChar, 't']
  else if c = Char.ofNat 10 then [backslashChar, 'n']
  else if c = Char.ofNat 12 then [backslashChar, 'f']
  else if c = Char.ofNat 13 then [backslashChar, 'r']
  else if c.toNat < 32 then
    [backslashChar, 'u', '0', '0', hexDigit (c.toNat / 16), hexDigit (c.toNat % 16)]
  else [c]

def escList : List Char → List Char
  | [] => []
  | c :: cs => escChar c ++ escList cs

/-- A JSON string literal: quote, escaped content, quote. -/
def strChars (s : String) : List Char :=
  quoteChar :: (escList s.data ++ [quoteChar])

def keyIdStr : String := "\x7b\"id\":"
def keyNameStr : String := ",\"name\":"
def keyQuantityStr : String := ",\"quantity\":"
def keyPriceStr : String := ",\"price\":"

/-- The JSON object for one item, in property order id, name, quantity,
price, with no whitespace (as JSON.stringify emits it). -/
def itemChars (it : Item) : List Char :=
  keyIdStr.data ++ intChars it.id
    ++ keyNameStr.data ++ strChars it.name
    ++ keyQuantityStr.data ++ intChars it.quantity
    ++ keyPriceStr.data ++ intChars it.price ++ [closeBraceChar]

def itemsTailChars : List Item → List Char
  | [] => []
  | it :: rest => ',' :: (itemChars it ++ itemsTailChars rest)

/-- The JSON array of item objects. -/
def itemsChars : List Item → List Char
  | [] => [openBracketChar, closeBracketChar]
  | it :: rest => openBracketChar :: (itemChars it ++ itemsTailChars rest ++ [closeBracketChar])

/-- The serialized items string, JSON.stringify(items), stored in orders.items. -/
def itemsToJson (items : List Item) : String :=
  ⟨itemsChars items⟩

/-- The response of POST /api/order. -/
inductive OrderResp where
  | badRequest
  | orderFailed
  | placed (orderId : Nat) (total : Int)
deriving DecidableEq

/-- The HTTP status of an order response. -/
def OrderResp.status : OrderResp → Nat
  | .badRequest => 400
  | .orderFailed => 500
  | .placed _ _ => 200

/-- The outcome of one POST /api/order request: response, database
after the request, trace of storage operations issued. -/
structure OrderResult where
  resp : OrderResp
  db : Db
  ops : List DbOp
deriving DecidableEq

/-- The items.forEach loop of the order handler: one INSERT into
cart_history per item.  cartErr says whether the insert at a given
position fails; a failed insert is only logged in the source, so it
leaves the database unchanged and the loop continues. -/
def insertCartLoop : Db → String → List Item → Nat → (Nat → Bool) → Db × List DbOp
  | db, _, [], _, _ => (db, [])
  | db, u, it :: rest, i, cartErr =>
    let db1 := if cartErr i then db else db.insertCart u it
    let r := insertCartLoop db1 u rest (i + 1) cartErr
    (r.1, DbOp.insertCart u it.id it.name it.quantity it.price :: r.2)

/-- The POST /api/order handler.  orderErr says whether the INSERT into
orders fails; cartErr gives the failure of each cart_history insert. -/
def apiOrder (db : Db) (username? : Option String) (items? : Option (List Item))
    (total? : Option Int) (orderErr : Bool) (cartErr : Nat → Bool) : OrderResult :=
  if !(truthyStr username?) || !(truthyArr items?) || !(truthyNum total?) then
    ⟨.badRequest, db, []⟩
  else
    let u := username?.getD emptyStr
    let items := items?.getD []
    let total := total?.getD 0
    let itemsJson := itemsToJson items
    if orderErr then ⟨.orderFailed, db, [.insertOrder u itemsJson total]⟩
    else
      let orderId := db.nextOrderId
      let db1 := db.insertOrder u itemsJson total
      let r := insertCartLoop db1 u items 0 cartErr
      ⟨.placed orderId total, r.1, .insertOrder u itemsJson total :: r.2⟩

/-- ORDER BY order_date DESC. -/
def orderDesc (a b : OrderRow) : Prop :=
  b.order_date ≤ a.order_date

instance : DecidableRel orderDesc :=
  fun a b => Nat.decLe b.order_date a.order_date

instance : IsTotal OrderRow orderDesc :=
  ⟨fun a b => Nat.le_total b.order_date a.order_date⟩

instance : IsTrans OrderRow orderDesc :=
  ⟨fun _ _ _ h1 h2 => Nat.le_trans h2 h1⟩

/-- ORDER BY added_date DESC. -/
def cartDesc (a b : CartRow) : Prop :=
  b.added_date ≤ a.added_date

instance : DecidableRel cartDesc :=
  fun a b => Nat.decLe b.added_date a.added_date

instance : IsTotal CartRow cartDesc :=
  ⟨fun a b => Nat.le_total b.added_date a.added_date⟩

instance : IsTrans CartRow cartDesc :=
  ⟨fun _ _ _ h1 h2 => Nat.le_trans h2 h1⟩

/-- GET /api/orders/:username — SELECT * FROM orders WHERE username = ?
ORDER BY order_date DESC.  err says whether the SELECT fails. -/
def apiOrders (db : Db) (username : String) (err : Bool) :
    Except String (List OrderRow) × Db :=
  if err then (.error dbErrorMsg, db)
  else (.ok (List.insertionSort orderDesc (db.orders.filter (fun r => r.username == username))), db)

/-- GET /api/cart-history/:username — SELECT * FROM cart_history WHERE
username = ? ORDER BY added_date DESC. -/
def apiCartHistory (db : Db) (username : String) (err : Bool) :
    Except String (List CartRow) × Db :=
  if err then (.error dbErrorMsg, db)
  else (.ok (List.insertionSort cartDesc (db.cart.filter (fun r => r.username == username))), db)

/-- GET /admin — the three COUNT(*) values. -/
def adminSummary (db : Db) : (Nat × Nat × Nat) × Db :=
  ((db.users.length, db.orders.length, db.cart.length), db)

/-- GET /admin/details — full dumps of the three tables. -/
def adminDetails (db : Db) : (List UserRow × List OrderRow × List CartRow) × Db :=
  ((db.users, db.orders, db.cart), db)

/-! Schema creation.  The startup callback runs three CREATE TABLE IF
NOT EXISTS statements.  A store maps table names to a table (its
definition text and its rows, kept abstract as lists of column-value
lists); CREATE TABLE errors when the name already exists unless the
IF NOT EXISTS clause is present, in which case it is a no-op. -/

/-- A table of the store: its CREATE TABLE column definition text and
its current rows. -/
structure Table where
  defn : String
  rows : List (List String)
deriving DecidableEq

/-- The relational store: an association list from table name to table. -/
structure Store where
  tables : List (String × Table)
deriving DecidableEq

def usersTbl : String := "users"
def ordersTbl : String := "orders"
def cartHistoryTbl : String := "cart_history"

def usersDefn : String :=
  "id INTEGER PRIMARY KEY AUTOINCREMENT, username TEXT UNIQUE NOT NULL, password TEXT NOT NULL, created_at DATETIME DEFAULT CURRENT_TIMESTAMP"

def ordersDefn : String :=
  "id INTEGER PRIMARY KEY AUTOINCREMENT, username TEXT NOT NULL, items TEXT NOT NULL, total REAL NOT NULL, order_date DATETIME DEFAULT CURRENT_TIMESTAMP, FOREIGN KEY (username) REFERENCES users (username)"

def cartHistoryDefn : String :=
  "id INTEGER PRIMARY KEY AUTOINCREMENT, username TEXT NOT NULL, item_id INTEGER NOT NULL, item_name TEXT NOT NULL, quantity INTEGER NOT NULL, price REAL NOT NULL, added_date DATETIME DEFAULT CURRENT_TIMESTAMP, FOREIGN KEY (username) REFERENCES users (username)"

def tableExistsMsg : String := "table already exists"

/-- CREATE TABLE [IF NOT EXISTS] name (defn): errors when the table
exists and the clause is absent, is a no-op when the table exists and
the clause is present, and otherwise appends a new empty table. -/
def createTable (s : Store) (name defn : String) (ifNotExists : Bool) :
    Except String Store :=
  match s.tables.lookup name with
  | some _ => if ifNotExists then .ok s else .error tableExistsMsg
  | none => .ok ⟨s.tables ++ [(name, ⟨defn, []⟩)]⟩

/-- The table-creation step run in the database-open callback: the
three CREATE TABLE IF NOT EXISTS statements in source order. -/
def initSchema (s : Store) : Except String Store :=
  (createTable s usersTbl usersDefn true).bind fun s1 =>
    (createTable s1 ordersTbl ordersDefn true).bind fun s2 =>
      createTable s2 cartHistoryTbl cartHistoryDefn true

/-! Parsing: JSON.parse for the stored items column, restricted to the grammar
JSON.stringify produces for an items array: used by the admin details
view to recover the item list from orders.items. -/

def isDigit (c : Char) : Bool :=
  48 ≤ c.toNat && c.toNat ≤ 57

/-- Consume a maximal run of decimal digits, accumulating their value. -/
def takeDigits : List Char → Nat → Nat × List Char
  | [], acc => (acc, [])
  | c :: cs, acc =>
    if isDigit c then takeDigits cs (10 * acc + (c.toNat - 48)) else (acc, c :: cs)

/-- Parse a natural number (at least one digit). -/
def parseNat (cs : List Char) : Option (Nat × List Char) :=
  match cs with
  | c :: _ => if isDigit c then some (takeDigits cs 0) else none
  | [] => none

/-- Parse a JSON integer: optional minus sign, then digits. -/
def parseIntChars (cs : List Char) : Option (Int × List Char) :=
  match cs with
  | [] => none
  | c :: cs' =>
    if c = '-' then
      match parseNat cs' with
      | some (n, rest) => some (-(n : Int), rest)
      | none => none
    else
      match parseNat cs with
      | some (n, rest) => some ((n : Int), rest)
      | none => none

/-- Value of a lowercase hexadecimal digit character. -/
def hexVal (c : Char) : Option Nat :=
  if 48 ≤ c.toNat && c.toNat ≤ 57 then some (c.toNat - 48)
  else if 97 ≤ c.toNat && c.toNat ≤ 102 then some (c.toNat - 87)
  else none

/-- Parse the body of a JSON string literal after its opening quote,
up to and past the closing quote, decoding the escapes JSON.stringify
emits; returns the decoded characters and the remaining input. -/
def parseStrBody : List Char → Option (List Char × List Char)
  | [] => none
  | c :: cs =>
    if c = quoteChar then some ([], cs)
    else if c = backslashChar then
      match cs with
      | [] => none
      | e :: cs' =>
        if e = quoteChar then
          (parseStrBody cs').map fun r => (quoteChar :: r.1, r.2)
        else if e = backslashChar then
          (parseStrBody cs').map fun r => (backslashChar :: r.1, r.2)
        else if e = 'b' then
          (parseStrBody cs').map fun r => (Char.ofNat 8 :: r.1, r.2)
        else if e = 't' then
          (parseStrBody cs').map fun r => (Char.ofNat 9 :: r.1, r.2)
        else if e = 'n' then
          (parseStrBody cs').map fun r => (Char.ofNat 10 :: r.1, r.2)
        else if e = 'f' then
          (parseStrBody cs').map fun r => (Char.ofNat 12 :: r.1, r.2)
        else if e = 'r' then
          (parseStrBody cs').map fun r => (Char.ofNat 13 :: r.1, r.2)
        else if e = 'u' then
          match cs' with
          | h1 :: h2 :: h3 :: h4 :: cs'' =>
            match hexVal h1, hexVal h2, hexVal h3, hexVal h4 with
            | some a, some b, some c3, some d =>
              (parseStrBody cs'').map fun r =>
                (Char.ofNat (((a * 16 + b) * 16 + c3) * 16 + d) :: r.1, r.2)
            | _, _, _, _ => none
          | _ => none
        else none
    else (parseStrBody cs).map fun r => (c :: r.1, r.2)

/-- Consume an expected literal character sequence. -/
def expectChars : List Char → List Char → Option (List Char)
  | [], cs => some cs
  | _ :: _, [] => none
  | p :: ps, c :: cs => if c = p then expectChars ps cs else none

/-- Parse one item object of the serialized items array. -/
def parseItem (cs : List Char) : Option (Item × List Char) :=
  match expectChars keyIdStr.data cs with
  | none => none
  | some cs1 =>
    match parseIntChars cs1 with
    | none => none
    | some (idv, cs2) =>
      match expectChars keyNameStr.data cs2 with
      | none => none
      | some cs3 =>
        match cs3 with
        | [] => none
        | q :: cs4 =>
          if q = quoteChar then
            match parseStrBody cs4 with
            | none => none
            | some (nameChars, cs5) =>
              match expectChars keyQuantityStr.data cs5 with
              | none => none
              | some cs6 =>
                match parseIntChars cs6 with
                | none => none
                | some (qv, cs7) =>
                  match expectChars keyPriceStr.data cs7 with
                  | none => none
                  | some cs8 =>
                    match parseIntChars cs8 with
                    | none => none
                    | some (pv, cs9) =>
                      match cs9 with
                      | [] => none
                      | b :: cs10 =>
                        if b = closeBraceChar then
                          some (⟨idv, ⟨nameChars⟩, qv, pv⟩, cs10)
                        else none
          else none

/-- Parse the remaining elements of the items array after the first:
either the closing bracket, or a comma followed by an item.  The fuel
argument bounds the number of elements. -/
def parseItemsTail : Nat → List Char → Option (List Item × List Char)
  | 0, _ => none
  | _ + 1, [] => none
  | fuel + 1, c :: cs =>
    if c = closeBracketChar then some ([], cs)
    else if c = ',' then
      match parseItem cs with
      | none => none
      | some (it, cs') =>
        match parseItemsTail fuel cs' with
        | none => none
        | some (its, cs'') => some (it :: its, cs'')
    else none

/-- Parse a serialized items array: the opening bracket, then either a
first item followed by the remaining elements, or (when no item starts
here) the closing bracket of the empty array. -/
def parseItemsChars (cs : List Char) : Option (List Item × List Char) :=
  match cs with
  | [] => none
  | c :: cs1 =>
    if c = openBracketChar then
      match parseItem cs1 with
      | some (it, cs3) =>
        match parseItemsTail (cs3.length + 1) cs3 with
        | none => none
        | some (its, cs4) => some (it :: its, cs4)
      | none =>
        match cs1 with
        | [] => none
        | d :: cs2 => if d = closeBracketChar then some ([], cs2) else none
    else none

/-- The JSON.parse of a stored items column: the whole string must be one
serialized items array. -/
def parseItemsString (s : String) : Option (List Item) :=
  match parseItemsChars s.data with
  | some (items, []) => some items
  | _ => none

/-- The rows the items.forEach loop appends to cart_history when every
insert succeeds, starting from AUTOINCREMENT id id0 and clock c0: one
row per item, in item order, carrying the item's id, name, quantity and
price and the order's username. -/
def expectedCartRows (u : String) : List Item → Nat → Nat → List CartRow
  | [], _, _ => []
  | it :: rest, id0, c0 =>
    ⟨id0, u, it.id, it.name, it.quantity, it.price, c0⟩ :: expectedCartRows u rest (id0 + 1) (c0 + 1)

/-- Whether a character list starts with a decimal digit. -/
def headDigit : List Char → Bool
  | [] => false
  | c :: _ => isDigit c

/-- The pure effect of CREATE TABLE IF NOT EXISTS (which never errors):
a no-op when the table exists, otherwise append a new empty table. -/
def createTableINE (s : Store) (name defn : String) : Store :=
  match s.tables.lookup name with
  | some _ => s
  | none => ⟨s.tables ++ [(name, ⟨defn, []⟩)]⟩

/-- The store produced by the table-creation step. -/
def initSchemaStore (s : Store) : Store :=
  createTableINE
    (createTableINE (createTableINE s usersTbl usersDefn) ordersTbl ordersDefn)
    cartHistoryTbl cartHistoryDefn

def alice : String := "alice"
def pwdX : String := "x"
def pwdY : String := "y"
def pizza : String := "Pizza"

def item1 : Item := ⟨1, pizza, 2, 150⟩

/-- A store already holding the three tables. -/
def store3 : Store :=
  ⟨[(usersTbl, ⟨usersDefn, []⟩), (ordersTbl, ⟨ordersDefn, []⟩),
    (cartHistoryTbl, ⟨cartHistoryDefn, []⟩)]⟩

/-! Helper lemmas about the cart-history loop. -/

theorem insertCartLoop_users (db : Db) (u : String) (items : List Item) (i : Nat)
    (ce : Nat → Bool) : (insertCartLoop db u items i ce).1.users = db.users := by
  induction items generalizing db i with
  | nil => rfl
  | cons it rest ih =>
    show (insertCartLoop (if ce i then db else db.insertCart u it) u rest (i + 1) ce).1.users
        = db.users
    rw [ih]
    by_cases h : ce i <;> simp [h, Db.insertCart]

theorem insertCartLoop_orders (db : Db) (u : String) (items : List Item) (i : Nat)
    (ce : Nat → Bool) : (insertCartLoop db u items i ce).1.orders = db.orders := by
  induction items generalizing db i with
  | nil => rfl
  | cons it rest ih =>
    show (insertCartLoop (if ce i then db else db.insertCart u it) u rest (i + 1) ce).1.orders
        = db.orders
    rw [ih]
    by_cases h : ce i <;> simp [h, Db.insertCart]

theorem insertCartLoop_cart_extends (db : Db) (u : String) (items : List Item) (i : Nat)
    (ce : Nat → Bool) : ∃ l, (insertCartLoop db u items i ce).1.cart = db.cart ++ l := by
  induction items generalizing db i with
  | nil => exact ⟨[], by simp [insertCartLoop]⟩
  | cons it rest ih =>
    show ∃ l, (insertCartLoop (if ce i then db else db.insertCart u it) u rest (i + 1) ce).1.cart
        = db.cart ++ l
    obtain ⟨l, hl⟩ := ih (if ce i then db else db.insertCart u it) (i + 1)
    by_cases h : ce i
    · exact ⟨l, by simpa [h] using hl⟩
    · refine ⟨⟨db.nextCartId, u, it.id, it.name, it.quantity, it.price, db.clock⟩ :: l, ?_⟩
      simp [h, Db.insertCart] at hl
      simpa [h, Db.insertCart] using hl

theorem insertCartLoop_ops (db : Db) (u : String) (items : List Item) (i : Nat)
    (ce : Nat → Bool) :
    (insertCartLoop db u items i ce).2 =
      items.map (fun it => DbOp.insertCart u it.id it.name it.quantity it.price) := by
  induction items generalizing db i with
  | nil => rfl
  | cons it rest ih => simp [insertCartLoop, ih]

theorem insertCartLoop_success (db : Db) (u : String) (items : List Item) (i : Nat) :
    insertCartLoop db u items i (fun _ => false) =
      ({ db with
          cart := db.cart ++ expectedCartRows u items db.nextCartId db.clock
          nextCartId := db.nextCartId + items.length
          clock := db.clock + items.length },
        items.map (fun it => DbOp.insertCart u it.id it.name it.quantity it.price)) := by
  induction items generalizing db i with
  | nil =>
    cases db
    simp [insertCartLoop, expectedCartRows]
  | cons it rest ih =>
    have step : insertCartLoop db u (it :: rest) i (fun _ => false) =
        ((insertCartLoop (db.insertCart u it) u rest (i + 1) (fun _ => false)).1,
          DbOp.insertCart u it.id it.name it.quantity it.price ::
            (insertCartLoop (db.insertCart u it) u rest (i + 1) (fun _ => false)).2) := by
      simp [insertCartLoop]
    rw [step, ih]
    cases db
    simp [Db.insertCart, expectedCartRows, List.append_assoc, Db.mk.injEq, Prod.mk.injEq]
    omega

/-- C6: loginOrRegister fails with a validation error whenever username
or password is empty or absent, for every such input combination, and
in that case performs no storage access at all: no lookup, no insert,
and the database is unchanged. -/
theorem loginOrRegister_validation (db : Db) (username? password? : Option String)
    (lookupErr insertErr : Bool)
    (h : truthyStr username? = false ∨ truthyStr password? = false) :
    (apiLogin db username? password? lookupErr insertErr).resp = .badRequest ∧
    (apiLogin db username? password? lookupErr insertErr).resp.status = 400 ∧
    (apiLogin db username? password? lookupErr insertErr).db = db ∧
    (apiLogin db username? password? lookupErr insertErr).ops = [] := by
  rcases h with h | h <;> simp [apiLogin, h, LoginResp.status]

theorem loginOrRegister_validation_witness :
    (apiLogin Db.empty none (some pwdX) false false).resp = .badRequest ∧
    (apiLogin Db.empty none (some pwdX) false false).resp.status = 400 ∧
    (apiLogin Db.empty none (some pwdX) false false).db = Db.empty ∧
    (apiLogin Db.empty none (some pwdX) false false).ops = [] :=
  loginOrRegister_validation Db.empty none (some pwdX) false false (Or.inl rfl)

/-- C4: with storage succeeding, a login request for a username not yet
present inserts exactly one users row holding that username and
password verbatim and answers with the message
"User created and login successful"; a login request for a username
already present answers "Login successful" after only the lookup,
inserts nothing, leaves the database unchanged, and its outcome does
not depend on the supplied password (no password comparison). -/
theorem loginOrRegister_lookup_or_create (db : Db) (u p p' : String)
    (hu : u ≠ emptyStr) (hp : p ≠ emptyStr) (hp' : p' ≠ emptyStr) :
    ((∀ row ∈ db.users, row.username ≠ u) →
      apiLogin db (some u) (some p) false false =
        ⟨.created u, db.insertUser u p, [.getUser u, .insertUser u p]⟩ ∧
      (db.insertUser u p).users = db.users ++ [⟨db.nextUserId, u, p, db.clock⟩] ∧
      (LoginResp.created u).message = createdMsg) ∧
    ((∃ row ∈ db.users, row.username = u) →
      apiLogin db (some u) (some p) false false = ⟨.loginOk u, db, [.getUser u]⟩ ∧
      apiLogin db (some u) (some p) false false = apiLogin db (some u) (some p') false false ∧
      (LoginResp.loginOk u).message = loginSuccessMsg) := by
  constructor
  · intro hnew
    have hfind : db.users.find? (fun r => r.username == u) = none := by
      refine List.find?_eq_none.mpr fun x hx => ?_
      simpa using hnew x hx
    refine ⟨?_, by simp [Db.insertUser], rfl⟩
    simp [apiLogin, truthyStr, hu, hp, hfind]
  · intro hex
    have hfind : (db.users.find? (fun r => r.username == u)).isSome := by
      refine List.find?_isSome.mpr ?_
      obtain ⟨row, hrow, hname⟩ := hex
      exact ⟨row, hrow, by simpa using hname⟩
    obtain ⟨r0, hr0⟩ := Option.isSome_iff_exists.mp hfind
    refine ⟨?_, ?_, rfl⟩ <;> simp [apiLogin, truthyStr, hu, hp, hp', hr0]

theorem loginOrRegister_lookup_or_create_witness :
    (apiLogin Db.empty (some alice) (some pwdX) false false =
      ⟨.created alice, Db.empty.insertUser alice pwdX,
        [.getUser alice, .insertUser alice pwdX]⟩ ∧
      (Db.empty.insertUser alice pwdX).users = Db.empty.users ++ [⟨1, alice, pwdX, 0⟩] ∧
      (LoginResp.created alice).message = createdMsg) :=
  (loginOrRegister_lookup_or_create Db.empty alice pwdX pwdY
    (by decide) (by decide) (by decide)).1 (by intro row hrow; simp [Db.empty] at hrow)

/-- C5: for every database state and username, listing orders returns
exactly the orders rows of that username sorted descending by
order_date, listing cart history returns exactly the cart_history rows
of that username sorted descending by added_date, an empty match gives
an empty sequence rather than an error, and neither operation modifies
the database. -/
theorem query_service_filter_sort (db : Db) (u : String) :
    (apiOrders db u false).2 = db ∧
    (apiCartHistory db u false).2 = db ∧
    (∃ rows, (apiOrders db u false).1 = .ok rows ∧
      rows.Perm (db.orders.filter (fun r => r.username == u)) ∧
      List.Sorted orderDesc rows ∧
      (∀ r : OrderRow, r ∈ rows ↔ r ∈ db.orders ∧ r.username = u) ∧
      (db.orders.filter (fun r => r.username == u) = [] → rows = [])) ∧
    (∃ rows, (apiCartHistory db u false).1 = .ok rows ∧
      rows.Perm (db.cart.filter (fun r => r.username == u)) ∧
      List.Sorted cartDesc rows ∧
      (∀ r : CartRow, r ∈ rows ↔ r ∈ db.cart ∧ r.username = u) ∧
      (db.cart.filter (fun r => r.username == u) = [] → rows = [])) := by
  refine ⟨rfl, rfl, ⟨_, rfl, List.perm_insertionSort _ _, List.sorted_insertionSort _ _, ?_, ?_⟩,
    ⟨_, rfl, List.perm_insertionSort _ _, List.sorted_insertionSort _ _, ?_, ?_⟩⟩
  · intro r
    rw [List.mem_insertionSort, List.mem_filter]
    simp
  · intro h
    rw [h]
    rfl
  · intro r
    rw [List.mem_insertionSort, List.mem_filter]
    simp
  · intro h
    rw [h]
    rfl

theorem query_service_filter_sort_witness :
    (apiOrders Db.empty alice false).2 = Db.empty ∧
    (apiOrders Db.empty alice false).1 = .ok [] := by
  obtain ⟨h1, _, ⟨rows, hok, _, _, _, hemp⟩, _⟩ := query_service_filter_sort Db.empty alice
  exact ⟨h1, by rw [hok, hemp rfl]⟩

/-- C8: every operation of the system is insert-only: on every endpoint
and every input, the rows already present in the users, orders and
cart_history tables are still present, unchanged and in place
afterwards — each table after the call is the table before the call
with zero or more new rows appended, and the read-only endpoints return
the database unchanged. -/
theorem system_insert_only (db : Db) (username? password? : Option String)
    (items? : Option (List Item)) (total? : Option Int)
    (lookupErr insertErr orderErr : Bool) (cartErr : Nat → Bool)
    (uname : String) (qerr : Bool) :
    (∃ l, (apiLogin db username? password? lookupErr insertErr).db.users = db.users ++ l) ∧
    (apiLogin db username? password? lookupErr insertErr).db.orders = db.orders ∧
    (apiLogin db username? password? lookupErr insertErr).db.cart = db.cart ∧
    (apiOrder db username? items? total? orderErr cartErr).db.users = db.users ∧
    (∃ l, (apiOrder db username? items? total? orderErr cartErr).db.orders = db.orders ++ l) ∧
    (∃ l, (apiOrder db username? items? total? orderErr cartErr).db.cart = db.cart ++ l) ∧
    (apiOrders db uname qerr).2 = db ∧
    (apiCartHistory db uname qerr).2 = db ∧
    (adminSummary db).2 = db ∧
    (adminDetails db).2 = db := by
  refine ⟨?_, ?_, ?_, ?_, ?_, ?_, ?_, ?_, rfl, rfl⟩
  · unfold apiLogin
    by_cases h1 : truthyStr username? <;> by_cases h2 : truthyStr password? <;>
        simp [h1, h2]
    cases lookupErr <;> simp
    cases hf : db.users.find? (fun r => r.username == username?.getD emptyStr) <;> simp
    cases insertErr <;> simp [Db.insertUser]
  · unfold apiLogin
    by_cases h1 : truthyStr username? <;> by_cases h2 : truthyStr password? <;>
        simp [h1, h2]
    cases lookupErr <;> simp
    cases hf : db.users.find? (fun r => r.username == username?.getD emptyStr) <;> simp
    cases insertErr <;> simp [Db.insertUser]
  · unfold apiLogin
    by_cases h1 : truthyStr username? <;> by_cases h2 : truthyStr password? <;>
        simp [h1, h2]
    cases lookupErr <;> simp
    cases hf : db.users.find? (fun r => r.username == username?.getD emptyStr) <;> simp
    cases insertErr <;> simp [Db.insertUser]
  · unfold apiOrder
    by_cases h1 : truthyStr username? <;> by_cases h2 : truthyArr items? <;>
        by_cases h3 : truthyNum total? <;> simp [h1, h2, h3]
    cases orderErr <;> simp
    rw [insertCartLoop_users]
    simp [Db.insertOrder]
  · unfold apiOrder
    by_cases h1 : truthyStr username? <;> by_cases h2 : truthyArr items? <;>
        by_cases h3 : truthyNum total? <;> simp [h1, h2, h3]
    cases orderErr <;> simp
    rw [insertCartLoop_orders]
    exact ⟨[⟨db.nextOrderId, username?.getD emptyStr, itemsToJson (items?.getD []),
      total?.getD 0, db.clock⟩], by simp [Db.insertOrder]⟩
  · unfold apiOrder
    by_cases h1 : truthyStr username? <;> by_cases h2 : truthyArr items? <;>
        by_cases h3 : truthyNum total? <;> simp [h1, h2, h3]
    cases orderErr <;> simp
    obtain ⟨l, hl⟩ := insertCartLoop_cart_extends
      (db.insertOrder (username?.getD emptyStr)
        (itemsToJson (items?.getD [])) (total?.getD 0))
      (username?.getD emptyStr) (items?.getD []) 0 cartErr
    exact ⟨l, by rw [hl]; simp [Db.insertOrder]⟩
  · cases qerr <;> rfl
  · cases qerr <;> rfl

/-! Helper lemmas about table lookup and schema creation. -/

theorem lookup_append_some {l : List (String × Table)} {name : String} {t : Table}
    (e : String × Table) (h : l.lookup name = some t) :
    (l ++ [e]).lookup name = some t := by
  induction l with
  | nil => simp [List.lookup] at h
  | cons a l ih =>
    cases hk : name == a.1
    · simp [List.lookup, hk] at h ⊢
      exact ih h
    · simp [List.lookup, hk] at h ⊢
      exact h

theorem lookup_append_self {l : List (String × Table)} {name : String} (t : Table)
    (h : l.lookup name = none) : (l ++ [(name, t)]).lookup name = some t := by
  induction l with
  | nil => simp [List.lookup]
  | cons a l ih =>
    cases hk : name == a.1
    · simp only [List.lookup, hk] at h ⊢
      exact ih h
    · simp only [List.lookup, hk] at h
      exact Option.noConfusion h

theorem createTable_ine_eq (s : Store) (name defn : String) :
    createTable s name defn true = .ok (createTableINE s name defn) := by
  unfold createTable createTableINE
  cases s.tables.lookup name <;> simp

theorem createTableINE_preserves {s : Store} {name : String} {t : Table}
    (m defn : String) (h : s.tables.lookup name = some t) :
    (createTableINE s m defn).tables.lookup name = some t := by
  unfold createTableINE
  cases hm : s.tables.lookup m with
  | some _ => exact h
  | none => exact lookup_append_some _ h

theorem createTableINE_ensures (s : Store) (m defn : String) :
    ((createTableINE s m defn).tables.lookup m).isSome := by
  unfold createTableINE
  cases hm : s.tables.lookup m with
  | some t => simp [hm]
  | none => simp [lookup_append_self ⟨defn, []⟩ hm]

theorem createTableINE_stable {s : Store} {m : String} (defn : String)
    (h : (s.tables.lookup m).isSome) : createTableINE s m defn = s := by
  unfold createTableINE
  obtain ⟨t, ht⟩ := Option.isSome_iff_exists.mp h
  rw [ht]

theorem initSchema_eq (s : Store) : initSchema s = .ok (initSchemaStore s) := by
  unfold initSchema initSchemaStore
  rw [createTable_ine_eq]
  show Except.bind _ _ = _
  rw [Except.bind]
  rw [createTable_ine_eq]
  show Except.bind _ _ = _
  rw [Except.bind]
  rw [createTable_ine_eq]

theorem initSchemaStore_has_users (s : Store) :
    ((initSchemaStore s).tables.lookup usersTbl).isSome := by
  unfold initSchemaStore
  cases h2 : ((createTableINE (createTableINE s usersTbl usersDefn) ordersTbl
      ordersDefn).tables.lookup usersTbl) with
  | some t => simp [createTableINE_preserves cartHistoryTbl cartHistoryDefn h2]
  | none =>
    exfalso
    have h1 := createTableINE_ensures s usersTbl usersDefn
    obtain ⟨t, ht⟩ := Option.isSome_iff_exists.mp h1
    have := createTableINE_preserves ordersTbl ordersDefn ht
    rw [h2] at this
    exact Option.noConfusion this

theorem initSchemaStore_has_orders (s : Store) :
    ((initSchemaStore s).tables.lookup ordersTbl).isSome := by
  unfold initSchemaStore
  have h1 := createTableINE_ensures (createTableINE s usersTbl usersDefn) ordersTbl ordersDefn
  obtain ⟨t, ht⟩ := Option.isSome_iff_exists.mp h1
  simp [createTableINE_preserves cartHistoryTbl cartHistoryDefn ht]

theorem initSchemaStore_has_cart (s : Store) :
    ((initSchemaStore s).tables.lookup cartHistoryTbl).isSome := by
  unfold initSchemaStore
  exact createTableINE_ensures _ cartHistoryTbl cartHistoryDefn

/-- C7: schema creation is idempotent: the table-creation step always
succeeds (never errors), preserves the definition and contents of every
table already present, running it twice in sequence is the same as
running it once, and against a store already holding the three tables
it is the identity. -/
theorem schema_creation_idempotent (s : Store) :
    (∃ s1, initSchema s = .ok s1 ∧ initSchema s1 = .ok s1 ∧
      (∀ name t, s.tables.lookup name = some t → s1.tables.lookup name = some t)) ∧
    ((s.tables.lookup usersTbl).isSome ∧ (s.tables.lookup ordersTbl).isSome ∧
      (s.tables.lookup cartHistoryTbl).isSome → initSchema s = .ok s) := by
  constructor
  · refine ⟨initSchemaStore s, initSchema_eq s, ?_, ?_⟩
    · rw [initSchema_eq]
      have fix : initSchemaStore (initSchemaStore s) = initSchemaStore s := by
        show createTableINE (createTableINE (createTableINE (initSchemaStore s)
            usersTbl usersDefn) ordersTbl ordersDefn) cartHistoryTbl cartHistoryDefn
          = initSchemaStore s
        rw [createTableINE_stable usersDefn (initSchemaStore_has_users s)]
        rw [createTableINE_stable ordersDefn (initSchemaStore_has_orders s)]
        rw [createTableINE_stable cartHistoryDefn (initSchemaStore_has_cart s)]
      rw [fix]
    · intro name t h
      unfold initSchemaStore
      exact createTableINE_preserves _ _ (createTableINE_preserves _ _
        (createTableINE_preserves _ _ h))
  · rintro ⟨hu, ho, hc⟩
    rw [initSchema_eq]
    unfold initSchemaStore
    rw [createTableINE_stable usersDefn hu, createTableINE_stable ordersDefn ho,
      createTableINE_stable cartHistoryDefn hc]

theorem schema_creation_idempotent_witness :
    initSchema store3 = .ok store3 :=
  (schema_creation_idempotent store3).2 ⟨by decide, by decide, by decide⟩

/-- C1 (amended): placeOrder fails with the validation error (status
400, database unchanged, no storage access) precisely when username is
absent or empty, items is absent, or total is absent or equal to 0 —
these are the truthiness presence checks of the source, so an empty
items array and a negative total both pass validation; and whenever the
checks pass the INSERT into orders is attempted. -/
theorem placeOrder_validation_characterization (db : Db) (username? : Option String)
    (items? : Option (List Item)) (total? : Option Int) (orderErr : Bool)
    (cartErr : Nat → Bool) :
    ((apiOrder db username? items? total? orderErr cartErr).resp = .badRequest ↔
      truthyStr username? = false ∨ items? = none ∨ truthyNum total? = false) ∧
    ((apiOrder db username? items? total? orderErr cartErr).resp = .badRequest →
      (apiOrder db username? items? total? orderErr cartErr).resp.status = 400 ∧
      (apiOrder db username? items? total? orderErr cartErr).db = db ∧
      (apiOrder db username? items? total? orderErr cartErr).ops = []) ∧
    ((apiOrder db username? items? total? orderErr cartErr).resp ≠ .badRequest →
      DbOp.insertOrder (username?.getD emptyStr) (itemsToJson (items?.getD []))
        (total?.getD 0) ∈ (apiOrder db username? items? total? orderErr cartErr).ops) := by
  unfold apiOrder
  cases items? with
  | none => simp [truthyArr, OrderResp.status]
  | some items =>
    by_cases h1 : truthyStr username? <;> by_cases h3 : truthyNum total? <;>
      simp [h1, h3, truthyArr, OrderResp.status]
    cases orderErr <;> simp

theorem placeOrder_validation_characterization_witness :
    (apiOrder Db.empty (some alice) none (some 100) false (fun _ => false)).resp =
      .badRequest ∧
    (apiOrder Db.empty (some alice) none (some 100) false (fun _ => false)).ops = [] := by
  have h := placeOrder_validation_characterization Db.empty (some alice) none (some 100)
    false (fun _ => false)
  have hbad := h.1.mpr (Or.inr (Or.inl rfl))
  exact ⟨hbad, (h.2.1 hbad).2.2⟩

/-- C1 is false as stated: this placeOrder request carries an empty
items array — not a non-empty sequence of line items, so the claimed
input constraint is violated — yet validation passes: the response is
the 200 success, not the 400 validation error, and the INSERT into
orders is attempted. -/
theorem placeOrder_empty_items_accepted :
    ([] : List Item).length = 0 ∧
    (apiOrder Db.empty (some alice) (some []) (some 100) false (fun _ => false)).resp =
      .placed 1 100 ∧
    (apiOrder Db.empty (some alice) (some []) (some 100) false (fun _ => false)).resp.status
      = 200 ∧
    (apiOrder Db.empty (some alice) (some []) (some 100) false (fun _ => false)).ops =
      [DbOp.insertOrder alice (itemsToJson []) 100] :=
  ⟨rfl, rfl, rfl, rfl⟩

/-- C10: a placeOrder request whose total field is present and equal to
0 is rejected with the missing-fields validation error (status 400, no
storage access, database unchanged), even though every required field
is supplied — username non-empty, items a non-empty list — because the
presence check tests truthiness and the number 0 is falsy. -/
theorem placeOrder_zero_total_rejected (db : Db) (u : String) (items : List Item)
    (orderErr : Bool) (cartErr : Nat → Bool) (hu : u ≠ emptyStr) (hi : items ≠ []) :
    (apiOrder db (some u) (some items) (some 0) orderErr cartErr).resp = .badRequest ∧
    (apiOrder db (some u) (some items) (some 0) orderErr cartErr).resp.status = 400 ∧
    (apiOrder db (some u) (some items) (some 0) orderErr cartErr).db = db ∧
    (apiOrder db (some u) (some items) (some 0) orderErr cartErr).ops = [] := by
  simp [apiOrder, truthyNum, OrderResp.status]

theorem placeOrder_zero_total_rejected_witness :
    (apiOrder Db.empty (some alice) (some [item1]) (some 0) false (fun _ => false)).resp =
      .badRequest ∧
    (apiOrder Db.empty (some alice) (some [item1]) (some 0) false (fun _ => false)).resp.status
      = 400 ∧
    (apiOrder Db.empty (some alice) (some [item1]) (some 0) false (fun _ => false)).db =
      Db.empty ∧
    (apiOrder Db.empty (some alice) (some [item1]) (some 0) false (fun _ => false)).ops = [] :=
  placeOrder_zero_total_rejected Db.empty alice [item1] false (fun _ => false)
    (by decide) (by decide)

/-- C3: when the INSERT into orders fails, placeOrder reports the
storage error (status 500), the database is unchanged — in particular
zero cart_history rows are written — and no cart_history insert is even
attempted: the operation trace holds only the failed order insert. -/
theorem placeOrder_order_insert_failure (db : Db) (u : String) (items : List Item)
    (total : Int) (cartErr : Nat → Bool) (hu : u ≠ emptyStr) (ht : total ≠ 0) :
    (apiOrder db (some u) (some items) (some total) true cartErr).resp = .orderFailed ∧
    (apiOrder db (some u) (some items) (some total) true cartErr).resp.status = 500 ∧
    (apiOrder db (some u) (some items) (some total) true cartErr).db = db ∧
    (apiOrder db (some u) (some items) (some total) true cartErr).db.cart = db.cart ∧
    (apiOrder db (some u) (some items) (some total) true cartErr).ops =
      [DbOp.insertOrder u (itemsToJson items) total] := by
  simp [apiOrder, truthyStr, truthyArr, truthyNum, hu, ht, OrderResp.status]

theorem placeOrder_order_insert_failure_witness :
    (apiOrder Db.empty (some alice) (some [item1]) (some 300) true (fun _ => false)).resp =
      .orderFailed ∧
    (apiOrder Db.empty (some alice) (some [item1]) (some 300) true (fun _ => false)).resp.status
      = 500 ∧
    (apiOrder Db.empty (some alice) (some [item1]) (some 300) true (fun _ => false)).db =
      Db.empty ∧
    (apiOrder Db.empty (some alice) (some [item1]) (some 300) true (fun _ => false)).db.cart
      = Db.empty.cart ∧
    (apiOrder Db.empty (some alice) (some [item1]) (some 300) true (fun _ => false)).ops =
      [DbOp.insertOrder alice (itemsToJson [item1]) 300] :=
  placeOrder_order_insert_failure Db.empty alice [item1] 300 (fun _ => false)
    (by decide) (by decide)

theorem expectedCartRows_length (u : String) (items : List Item) (id0 c0 : Nat) :
    (expectedCartRows u items id0 c0).length = items.length := by
  induction items generalizing id0 c0 with
  | nil => rfl
  | cons it rest ih => simp [expectedCartRows, ih]

theorem expectedCartRows_get (u : String) (items : List Item) (id0 c0 j : Nat)
    (hj : j < items.length) (hr : j < (expectedCartRows u items id0 c0).length) :
    (expectedCartRows u items id0 c0).get ⟨j, hr⟩ =
      ⟨id0 + j, u, (items.get ⟨j, hj⟩).id, (items.get ⟨j, hj⟩).name,
        (items.get ⟨j, hj⟩).quantity, (items.get ⟨j, hj⟩).price, c0 + j⟩ := by
  induction items generalizing id0 c0 j with
  | nil => exact absurd hj (by simp)
  | cons it rest ih =>
    cases j with
    | zero => simp [expectedCartRows]
    | succ j' =>
      have hj' : j' < rest.length := by simpa using hj
      have hr' : j' < (expectedCartRows u rest (id0 + 1) (c0 + 1)).length := by
        rw [expectedCartRows_length]
        exact hj'
      have step : (expectedCartRows u (it :: rest) id0 c0).get ⟨j' + 1, hr⟩ =
          (expectedCartRows u rest (id0 + 1) (c0 + 1)).get ⟨j', hr'⟩ := rfl
      rw [step, ih (id0 + 1) (c0 + 1) j' hj' hr']
      have ha : id0 + 1 + j' = id0 + (j' + 1) := by omega
      have hb : c0 + 1 + j' = c0 + (j' + 1) := by omega
      rw [ha, hb]
      rfl

/-- C2 (amended): a placeOrder call that passes validation and whose
order insert succeeds responds with the newly assigned order id and the
echoed total, inserts exactly one orders row, and attempts exactly one
cart_history insert per item, each attempt carrying the order's
username and the corresponding item's id, name, quantity and price; a
failing cart-history insert is only logged, so the k rows are all
present exactly when no such insert fails, in which case the cart table
gains exactly k rows matching the items in order. -/
theorem placeOrder_success_rows (db : Db) (u : String) (items : List Item) (total : Int)
    (cartErr : Nat → Bool) (hu : u ≠ emptyStr) (ht : total ≠ 0) :
    (apiOrder db (some u) (some items) (some total) false cartErr).resp =
      .placed db.nextOrderId total ∧
    (apiOrder db (some u) (some items) (some total) false cartErr).db.orders =
      db.orders ++ [⟨db.nextOrderId, u, itemsToJson items, total, db.clock⟩] ∧
    (apiOrder db (some u) (some items) (some total) false cartErr).ops =
      DbOp.insertOrder u (itemsToJson items) total ::
        items.map (fun it => DbOp.insertCart u it.id it.name it.quantity it.price) ∧
    (apiOrder db (some u) (some items) (some total) false (fun _ => false)).db.cart =
      db.cart ++ expectedCartRows u items db.nextCartId (db.clock + 1) ∧
    (expectedCartRows u items db.nextCartId (db.clock + 1)).length = items.length ∧
    (∀ j (hj : j < items.length)
        (hr : j < (expectedCartRows u items db.nextCartId (db.clock + 1)).length),
      (expectedCartRows u items db.nextCartId (db.clock + 1)).get ⟨j, hr⟩ =
        ⟨db.nextCartId + j, u, (items.get ⟨j, hj⟩).id, (items.get ⟨j, hj⟩).name,
          (items.get ⟨j, hj⟩).quantity, (items.get ⟨j, hj⟩).price, db.clock + 1 + j⟩) := by
  refine ⟨?_, ?_, ?_, ?_, expectedCartRows_length u items _ _,
    fun j hj hr => expectedCartRows_get u items _ _ j hj hr⟩
  · simp [apiOrder, truthyStr, truthyArr, truthyNum, hu, ht]
  · simp [apiOrder, truthyStr, truthyArr, truthyNum, hu, ht]
    rw [insertCartLoop_orders]
    simp [Db.insertOrder]
  · simp [apiOrder, truthyStr, truthyArr, truthyNum, hu, ht, insertCartLoop_ops]
  · simp [apiOrder, truthyStr, truthyArr, truthyNum, hu, ht]
    rw [insertCartLoop_success]
    simp [Db.insertOrder]

theorem placeOrder_success_rows_witness :
    (apiOrder Db.empty (some alice) (some [item1]) (some 300) false (fun _ => false)).resp =
      .placed 1 300 ∧
    (apiOrder Db.empty (some alice) (some [item1]) (some 300) false (fun _ => false)).db.cart =
      Db.empty.cart ++ expectedCartRows alice [item1] 1 1 := by
  have h := placeOrder_success_rows Db.empty alice [item1] 300 (fun _ => false)
    (by decide) (by decide)
  exact ⟨h.1, h.2.2.2.1⟩

/-- C2 is false as stated: with the storage layer failing the
cart-history inserts (which the source does not await and only logs),
this placeOrder call still succeeds — status 200, response carrying the
new order id 1 and the echoed total — for an item sequence of length 1,
yet zero cart_history rows are inserted. -/
theorem placeOrder_history_loss_on_success :
    ([item1] : List Item).length = 1 ∧
    (apiOrder Db.empty (some alice) (some [item1]) (some 300) false (fun _ => true)).resp =
      .placed 1 300 ∧
    (apiOrder Db.empty (some alice) (some [item1]) (some 300) false (fun _ => true)).resp.status
      = 200 ∧
    (apiOrder Db.empty (some alice) (some [item1]) (some 300) false (fun _ => true)).db.cart
      = [] :=
  ⟨rfl, rfl, rfl, rfl⟩

/-! Round-trip lemmas for the items serialization: parsing back what
JSON.stringify produced recovers the original items. -/

theorem digitChar_isDigit {d : Nat} (h : d < 10) : isDigit (digitChar d) = true := by
  interval_cases d <;> decide

theorem digitChar_toNat {d : Nat} (h : d < 10) : (digitChar d).toNat = 48 + d := by
  interval_cases d <;> decide

theorem natChars_ne_nil (n : Nat) : natChars n ≠ [] := by
  rw [natChars]
  by_cases h : n < 10 <;> simp [h]

theorem natChars_digits (n : Nat) : ∀ c ∈ natChars n, isDigit c = true := by
  induction n using Nat.strong_induction_on with
  | _ n ih =>
    rw [natChars]
    by_cases h : n < 10
    · simp [h]
      exact digitChar_isDigit h
    · simp only [h, dite_false]
      intro c hc
      rcases List.mem_append.mp hc with hc | hc
      · exact ih (n / 10) (Nat.div_lt_self (by omega) (by omega)) c hc
      · rw [List.mem_singleton.mp hc]
        exact digitChar_isDigit (Nat.mod_lt n (by omega))

theorem takeDigits_natChars (n : Nat) : ∀ acc rest,
    takeDigits (natChars n ++ rest) acc =
      takeDigits rest (acc * 10 ^ (natChars n).length + n) := by
  induction n using Nat.strong_induction_on with
  | _ n ih =>
    intro acc rest
    rw [natChars]
    by_cases h : n < 10
    · simp only [h, dite_true, List.singleton_append, List.length_singleton]
      rw [takeDigits, if_pos (digitChar_isDigit h), digitChar_toNat h]
      congr 1
      omega
    · simp only [h, dite_false, List.append_assoc, List.length_append,
        List.length_singleton]
      rw [ih (n / 10) (Nat.div_lt_self (by omega) (by omega))]
      rw [List.singleton_append, takeDigits,
        if_pos (digitChar_isDigit (Nat.mod_lt n (by omega))),
        digitChar_toNat (Nat.mod_lt n (by omega))]
      congr 1
      rw [pow_succ]
      have hdm : 10 * (n / 10) + n % 10 = n := Nat.div_add_mod n 10
      set k := 10 ^ (natChars (n / 10)).length
      calc 10 * (acc * k + n / 10) + (48 + n % 10 - 48)
          = acc * (k * 10) + (10 * (n / 10) + n % 10) := by ring_nf; omega
        _ = acc * (k * 10) + n := by rw [hdm]

theorem takeDigits_stop (rest : List Char) (acc : Nat) (h : headDigit rest = false) :
    takeDigits rest acc = (acc, rest) := by
  cases rest with
  | nil => rfl
  | cons c cs =>
    rw [headDigit] at h
    rw [takeDigits, if_neg (by simp [h])]

theorem parseNat_natChars (n : Nat) (rest : List Char) (h : headDigit rest = false) :
    parseNat (natChars n ++ rest) = some (n, rest) := by
  obtain ⟨c, cs, hcs⟩ := List.exists_cons_of_ne_nil (natChars_ne_nil n)
  have hcd : isDigit c = true := natChars_digits n c (by rw [hcs]; exact List.mem_cons_self c cs)
  have hshape : natChars n ++ rest = c :: (cs ++ rest) := by rw [hcs]; rfl
  rw [hshape, parseNat, if_pos hcd]
  rw [← hshape, takeDigits_natChars, takeDigits_stop rest _ h]
  simp

theorem isDigit_ne_minus {c : Char} (h : isDigit c = true) : c ≠ '-' := by
  intro hc
  rw [hc] at h
  exact absurd h (by decide)

theorem parseIntChars_intChars (i : Int) (rest : List Char) (h : headDigit rest = false) :
    parseIntChars (intChars i ++ rest) = some (i, rest) := by
  rw [intChars]
  by_cases hneg : i < 0
  · simp only [hneg, if_pos]
    rw [List.cons_append, parseIntChars, if_pos rfl, parseNat_natChars i.natAbs rest h]
    have hi : -((i.natAbs : Int)) = i := by omega
    show some (-((i.natAbs : Int)), rest) = some (i, rest)
    rw [hi]
  · simp only [hneg, if_neg, ite_false]
    obtain ⟨c, cs, hcs⟩ := List.exists_cons_of_ne_nil (natChars_ne_nil i.toNat)
    have hcd : isDigit c = true :=
      natChars_digits i.toNat c (by rw [hcs]; exact List.mem_cons_self c cs)
    have hshape : natChars i.toNat ++ rest = c :: (cs ++ rest) := by rw [hcs]; rfl
    rw [hshape, parseIntChars, if_neg (isDigit_ne_minus hcd), ← hshape,
      parseNat_natChars i.toNat rest h]
    have hi : ((i.toNat : Int)) = i := by omega
    show some (((i.toNat : Int)), rest) = some (i, rest)
    rw [hi]

theorem hexVal_hexDigit {d : Nat} (h : d < 16) : hexVal (hexDigit d) = some d := by
  interval_cases d <;> decide

theorem parseStrBody_escList (l : List Char) (rest : List Char) :
    parseStrBody (escList l ++ (quoteChar :: rest)) = some (l, rest) := by
  have fbq : backslashChar ≠ quoteChar := by decide
  induction l with
  | nil =>
    show parseStrBody (quoteChar :: rest) = some ([], rest)
    rw [parseStrBody.eq_def]
    simp
  | cons c l ih =>
    show parseStrBody ((escChar c ++ escList l) ++ (quoteChar :: rest)) = some (c :: l, rest)
    rw [List.append_assoc, escChar]
    by_cases h1 : c = quoteChar
    · subst h1
      rw [parseStrBody.eq_def]
      simp [ih, fbq]
    · rw [if_neg h1]
      by_cases h2 : c = backslashChar
      · subst h2
        rw [parseStrBody.eq_def]
        simp [ih, fbq]
      · rw [if_neg h2]
        by_cases h3 : c = Char.ofNat 8
        · subst h3
          rw [parseStrBody.eq_def]
          simp [ih, fbq, show ('b' : Char) ≠ quoteChar from by decide,
            show ('b' : Char) ≠ backslashChar from by decide]
        · rw [if_neg h3]
          by_cases h4 : c = Char.ofNat 9
          · subst h4
            rw [parseStrBody.eq_def]
            simp [ih, fbq, show ('t' : Char) ≠ quoteChar from by decide,
              show ('t' : Char) ≠ backslashChar from by decide]
          · rw [if_neg h4]
            by_cases h5 : c = Char.ofNat 10
            · subst h5
              rw [parseStrBody.eq_def]
              simp [ih, fbq, show ('n' : Char) ≠ quoteChar from by decide,
                show ('n' : Char) ≠ backslashChar from by decide]
            · rw [if_neg h5]
              by_cases h6 : c = Char.ofNat 12
              · subst h6
                rw [parseStrBody.eq_def]
                simp [ih, fbq, show ('f' : Char) ≠ quoteChar from by decide,
                  show ('f' : Char) ≠ backslashChar from by decide]
              · rw [if_neg h6]
                by_cases h7 : c = Char.ofNat 13
                · subst h7
                  rw [parseStrBody.eq_def]
                  simp [ih, fbq, show ('r' : Char) ≠ quoteChar from by decide,
                    show ('r' : Char) ≠ backslashChar from by decide]
                · rw [if_neg h7]
                  by_cases h8 : c.toNat < 32
                  · rw [if_pos h8]
                    have hdiv : c.toNat / 16 < 16 := by omega
                    have hmod : c.toNat % 16 < 16 := Nat.mod_lt _ (by omega)
                    have harith : (c.toNat / 16) * 16 + c.toNat % 16 = c.toNat := by omega
                    rw [parseStrBody.eq_def]
                    simp [ih, fbq, hexVal_hexDigit hdiv, hexVal_hexDigit hmod,
                      harith, Char.ofNat_toNat,
                      show ('u' : Char) ≠ quoteChar from by decide,
                      show ('u' : Char) ≠ backslashChar from by decide,
                      show hexVal ('0') = some 0 from by decide]
                  · rw [if_neg h8]
                    rw [parseStrBody.eq_def]
                    simp [h1, h2, ih]

theorem expectChars_append (pat rest : List Char) :
    expectChars pat (pat ++ rest) = some rest := by
  induction pat with
  | nil => rfl
  | cons p ps ih => simp [expectChars, ih]

theorem headDigit_keyName (x : List Char) : headDigit (keyNameStr.data ++ x) = false := rfl

theorem headDigit_keyPrice (x : List Char) : headDigit (keyPriceStr.data ++ x) = false := rfl

theorem headDigit_closeBrace (x : List Char) :
    headDigit (closeBraceChar :: x) = false := rfl

theorem parseItem_itemChars (it : Item) (rest : List Char) :
    parseItem (itemChars it ++ rest) = some (it, rest) := by
  have hshape : itemChars it ++ rest =
      keyIdStr.data ++ (intChars it.id ++ (keyNameStr.data ++ (strChars it.name ++
        (keyQuantityStr.data ++ (intChars it.quantity ++ (keyPriceStr.data ++
          (intChars it.price ++ (closeBraceChar :: rest)))))))) := by
    simp [itemChars, List.append_assoc]
  rw [hshape, parseItem, expectChars_append]
  simp [parseIntChars_intChars, headDigit_keyName, headDigit_keyPrice, headDigit_closeBrace,
    strChars, parseStrBody_escList, expectChars_append]

theorem itemsTailChars_length (l : List Item) :
    l.length ≤ (itemsTailChars l).length := by
  induction l with
  | nil => simp [itemsTailChars]
  | cons it rest ih =>
    simp [itemsTailChars]
    omega

theorem parseItemsTail_round (l : List Item) : ∀ (fuel : Nat) (rest : List Char),
    l.length < fuel →
    parseItemsTail fuel (itemsTailChars l ++ (closeBracketChar :: rest)) =
      some (l, rest) := by
  induction l with
  | nil =>
    intro fuel rest h
    cases fuel with
    | zero => omega
    | succ f =>
      show parseItemsTail (f + 1) (closeBracketChar :: rest) = some ([], rest)
      simp [parseItemsTail]
  | cons it l ih =>
    intro fuel rest h
    cases fuel with
    | zero => omega
    | succ f =>
      show parseItemsTail (f + 1)
          (',' :: ((itemChars it ++ itemsTailChars l) ++ (closeBracketChar :: rest))) =
        some (it :: l, rest)
      rw [parseItemsTail]
      rw [if_neg (show ¬ (',' : Char) = closeBracketChar from by decide), if_pos rfl]
      have h' : l.length < f := by simpa using h
      rw [List.append_assoc]
      simp only [parseItem_itemChars, ih f rest h']

theorem parseItem_closeBracket (rest : List Char) :
    parseItem (closeBracketChar :: rest) = none := rfl

theorem parseItemsChars_round (items : List Item) (rest : List Char) :
    parseItemsChars (itemsChars items ++ rest) = some (items, rest) := by
  cases items with
  | nil =>
    show parseItemsChars (openBracketChar :: (closeBracketChar :: rest)) = some ([], rest)
    rw [parseItemsChars.eq_def]
    simp [parseItem_closeBracket]
  | cons it l =>
    show parseItemsChars
        (openBracketChar :: (((itemChars it ++ itemsTailChars l) ++ [closeBracketChar]) ++ rest))
      = some (it :: l, rest)
    rw [parseItemsChars.eq_def]
    have hsh : ((itemChars it ++ itemsTailChars l) ++ [closeBracketChar]) ++ rest =
        itemChars it ++ (itemsTailChars l ++ (closeBracketChar :: rest)) := by
      simp [List.append_assoc]
    have hlen : l.length < (itemsTailChars l ++ (closeBracketChar :: rest)).length + 1 := by
      have := itemsTailChars_length l
      simp [List.length_append]
      omega
    simp only [hsh, parseItem_itemChars, if_pos rfl, parseItemsTail_round l _ rest hlen]
    simp

/-- Parsing recovers from JSON.stringify(items) the original items
sequence. -/
theorem parse_stringify (items : List Item) :
    parseItemsString (itemsToJson items) = some items := by
  rw [parseItemsString]
  rw [show (itemsToJson items).data = itemsChars items ++ [] from by simp [itemsToJson]]
  rw [parseItemsChars_round]

/-- C9: for every successful placeOrder call the items column stored in
the new orders row is exactly the JSON serialization of the request's
items list, and parsing that stored string back — as the admin details
view does with JSON.parse — recovers the original items sequence
(serialize-then-parse round trip). -/
theorem order_items_roundtrip (db : Db) (u : String) (items : List Item) (total : Int)
    (cartErr : Nat → Bool) (hu : u ≠ emptyStr) (ht : total ≠ 0) :
    (apiOrder db (some u) (some items) (some total) false cartErr).db.orders =
      db.orders ++ [⟨db.nextOrderId, u, itemsToJson items, total, db.clock⟩] ∧
    parseItemsString (itemsToJson items) = some items := by
  constructor
  · simp [apiOrder, truthyStr, truthyArr, truthyNum, hu, ht]
    rw [insertCartLoop_orders]
    simp [Db.insertOrder]
  · exact parse_stringify items

theorem order_items_roundtrip_witness :
    (apiOrder Db.empty (some alice) (some [item1]) (some 300) false (fun _ => false)).db.orders
      = Db.empty.orders ++ [⟨1, alice, itemsToJson [item1], 300, 0⟩] ∧
    parseItemsString (itemsToJson [item1]) = some [item1] :=
  order_items_roundtrip Db.empty alice [item1] 300 (fun _ => false) (by decide) (by decide)

end Foodly
